import Mathlib

/-!
Verification of the voltage language pipeline (lexer, parser, bytecode
compiler, virtual machine) against its natural-language specification.

The Rust sources are embedded shallowly:

* `Token` and `tokenize` model `voltage-parser/src/lexer.rs` (a `logos`
  lexer: maximal munch, with literal tokens taking priority over the
  identifier class on equal-length matches; unrecognized characters are
  skipped).
* The AST types model `voltage-core/src/lib.rs` (the Rust enum `Type` is
  named `Ty` here because `Type` is reserved in Lean).
* The parser functions model `voltage-parser/src/parser.rs`.  Rust panics
  (`panic!`, `.expect(..)`, `.unwrap()`, out-of-bounds indexing) are
  modelled as a `Panic` value carried in `Except`; recursion is driven by
  an explicit fuel argument (the Rust code can loop forever on some
  inputs, e.g. a stray right brace at top level).
* `BytecodeCompiler` models `voltage-vm/src/compiler.rs`.
* `VirtualMachine`, `step` and `run` model `voltage-vm/src/vm.rs`; the
  text the program writes to standard output is accumulated in the
  `output` field of the machine state.  Rust `i64` arithmetic is modelled
  on `Int` with explicit two's-complement wrapping; Rust `f64` is
  modelled by `Rat` (exact where the claims touch floats: zero tests of
  divisors and the sign of operands), and the display form of floats is
  abstracted by `toString` on `Rat`.
-/

namespace Voltage

/-- Token type from `voltage-parser/src/lexer.rs` (the `logos`-derived
`Token` enum).  `Number` carries the parsed `i64`; `String` carries the
raw slice including the surrounding quotes. -/
inductive Token where
  | Fn | Let | If | Else | Elif | For | While | Break | Continue | In
  | Unsafe | Import | As
  | Equals | Colon | LeftParen | RightParen | LeftBrace | RightBrace
  | Semi | Comma | Arrow
  | Greater | GreaterEqual | Less | LessEqual | Equal | NotEqual
  | Plus | Minus | Star | Slash | Percent
  | LeftBracket | RightBracket | Dot | DoubleColon
  | Identifier (s : String)
  | Number (n : Int)
  | String (s : String)
  deriving DecidableEq, Repr

/-- Rust `Debug` escaping of a string (quotes and backslashes escaped;
control characters beyond the common ones are left as is). -/
def rustStrEscape (s : String) : String :=
  s.data.foldl (fun acc c =>
    if c = '\\' then acc ++ "\\\\"
    else if c = '\x22' then acc ++ "\\\x22"
    else if c = '\n' then acc ++ "\\n"
    else if c = '\t' then acc ++ "\\t"
    else if c = '\r' then acc ++ "\\r"
    else acc.push c) ""

/-- Rust `Debug` rendering of a `String` value: quoted and escaped. -/
def rustStrDebug (s : String) : String :=
  "\x22" ++ rustStrEscape s ++ "\x22"

/-- Rust `Debug` rendering of a `Token` (derived `Debug` on the enum). -/
def tokenDebug : Token → String
  | .Fn => "Fn" | .Let => "Let" | .If => "If" | .Else => "Else"
  | .Elif => "Elif" | .For => "For" | .While => "While" | .Break => "Break"
  | .Continue => "Continue" | .In => "In" | .Unsafe => "Unsafe"
  | .Import => "Import" | .As => "As" | .Equals => "Equals"
  | .Colon => "Colon" | .LeftParen => "LeftParen" | .RightParen => "RightParen"
  | .LeftBrace => "LeftBrace" | .RightBrace => "RightBrace" | .Semi => "Semi"
  | .Comma => "Comma" | .Arrow => "Arrow" | .Greater => "Greater"
  | .GreaterEqual => "GreaterEqual" | .Less => "Less" | .LessEqual => "LessEqual"
  | .Equal => "Equal" | .NotEqual => "NotEqual" | .Plus => "Plus"
  | .Minus => "Minus" | .Star => "Star" | .Slash => "Slash"
  | .Percent => "Percent" | .LeftBracket => "LeftBracket"
  | .RightBracket => "RightBracket" | .Dot => "Dot" | .DoubleColon => "DoubleColon"
  | .Identifier s => "Identifier(" ++ rustStrDebug s ++ ")"
  | .Number n => "Number(" ++ toString n ++ ")"
  | .String s => "String(" ++ rustStrDebug s ++ ")"

/-- The fixed `#token` patterns of the lexer, in source order. -/
def fixedTokens : List (String × Token) :=
  [("fn", .Fn), ("let", .Let), ("if", .If), ("else", .Else), ("elif", .Elif),
   ("for", .For), ("while", .While), ("break", .Break), ("continue", .Continue),
   ("in", .In), ("unsafe", .Unsafe), ("import", .Import), ("as", .As),
   ("=", .Equals), (":", .Colon), ("(", .LeftParen), (")", .RightParen),
   ("\x7b", .LeftBrace), ("\x7d", .RightBrace), (";", .Semi), (",", .Comma),
   ("->", .Arrow), (">", .Greater), (">=", .GreaterEqual), ("<", .Less),
   ("<=", .LessEqual), ("==", .Equal), ("!=", .NotEqual), ("+", .Plus),
   ("-", .Minus), ("*", .Star), ("/", .Slash), ("%", .Percent),
   ("[", .LeftBracket), ("]", .RightBracket), (".", .Dot), ("::", .DoubleColon)]

/-- Character class `[a-zA-Z_]` (start of an identifier). -/
def isIdentStart (c : Char) : Bool := c.isAlpha || c = '_'

/-- Character class `[a-zA-Z0-9_]` (continuation of an identifier). -/
def isIdentCont (c : Char) : Bool := c.isAlpha || c.isDigit || c = '_'

/-- Length of the longest prefix of `cs` whose characters satisfy `p`. -/
def countWhile (p : Char → Bool) : List Char → Nat
  | [] => 0
  | c :: rest => if p c then countWhile p rest + 1 else 0

/-- Whether `pat` is a prefix of `cs`. -/
def prefixMatches : List Char → List Char → Bool
  | [], _ => true
  | _ :: _, [] => false
  | a :: as_, b :: bs => a = b && prefixMatches as_ bs

/-- Longest fixed token matching a prefix of the input, with its length. -/
def bestFixed (cs : List Char) : Option (Nat × Token) :=
  fixedTokens.foldl (fun best pt =>
    if prefixMatches pt.1.data cs then
      match best with
      | some (l, _) => if pt.1.length > l then some (pt.1.length, pt.2) else best
      | none => some (pt.1.length, pt.2)
    else best) none

/-- Length matched by the identifier regex `[a-zA-Z_][a-zA-Z0-9_]*`, if any. -/
def identMatchLen : List Char → Option Nat
  | [] => none
  | c :: rest => if isIdentStart c then some (countWhile isIdentCont rest + 1) else none

/-- Length matched by the number regex `[0-9]+`, if any. -/
def numMatchLen (cs : List Char) : Option Nat :=
  let n := countWhile Char.isDigit cs
  if n = 0 then none else some n

/-- Length of the tail of a string literal after the opening quote:
`([^"\\]|\\.)*"`. -/
def stringTailLen : List Char → Option Nat
  | [] => none
  | '\x22' :: _ => some 1
  | '\\' :: [] => none
  | '\\' :: _ :: rest => (stringTailLen rest).map (· + 2)
  | _ :: rest => (stringTailLen rest).map (· + 1)

/-- Length matched by the string regex `"([^"\\]|\\.)*"`, if any. -/
def strMatchLen : List Char → Option Nat
  | '\x22' :: rest => (stringTailLen rest).map (· + 1)
  | _ => none

/-- Length matched by the whitespace regex `[ \t\n\f]+`, if any. -/
def wsMatchLen (cs : List Char) : Option Nat :=
  let n := countWhile (fun c => c = ' ' || c = '\t' || c = '\n' || c = '\x0c') cs
  if n = 0 then none else some n

/-- Largest `i64` value, used by the number callback `parse().unwrap_or(0)`. -/
def i64MaxNat : Nat := 9223372036854775807

/-- Digits to value; the Rust callback clamps unparseable (overflowing)
text to 0. -/
def digitsToI64 (cs : List Char) : Int :=
  let n := cs.foldl (fun a c => a * 10 + (c.toNat - 48)) 0
  if n ≤ i64MaxNat then Int.ofNat n else 0

/-- One maximal-munch step of the `logos` lexer: the longest match wins;
on equal length a literal token beats the identifier class (literal
patterns have higher priority).  Unrecognized characters produce an
error that `Lexer::new` skips. -/
def tokenizeAux : Nat → List Char → List Token
  | 0, _ => []
  | _ + 1, [] => []
  | fuel + 1, cs =>
    let fixedB := bestFixed cs
    let fixedL := (fixedB.map (·.1)).getD 0
    let identL := (identMatchLen cs).getD 0
    let numL := (numMatchLen cs).getD 0
    let strL := (strMatchLen cs).getD 0
    let wsL := (wsMatchLen cs).getD 0
    let maxL := max fixedL (max identL (max numL (max strL wsL)))
    if maxL = 0 then
      -- lexer error: `Lexer::new` logs to stderr and skips the character
      tokenizeAux fuel (cs.drop 1)
    else if fixedL = maxL then
      match fixedB with
      | some (_, t) => t :: tokenizeAux fuel (cs.drop maxL)
      | none => tokenizeAux fuel (cs.drop maxL)
    else if identL = maxL then
      Token.Identifier (String.mk (cs.take maxL)) :: tokenizeAux fuel (cs.drop maxL)
    else if numL = maxL then
      Token.Number (digitsToI64 (cs.take maxL)) :: tokenizeAux fuel (cs.drop maxL)
    else if strL = maxL then
      Token.String (String.mk (cs.take maxL)) :: tokenizeAux fuel (cs.drop maxL)
    else
      tokenizeAux fuel (cs.drop maxL)

/-- `Lexer::new(source).tokenize()`: the full token sequence of a source
text, produced before parsing begins. -/
def tokenize (source : String) : List Token :=
  tokenizeAux (source.data.length + 1) source.data

/-- The AST type descriptor, Rust enum `Type` in `voltage-core/src/lib.rs`
(renamed: `Type` is reserved in Lean). -/
inductive Ty where
  | Integer | Float | String | Boolean | Void
  | Reference (t : Ty)
  | MutableReference (t : Ty)
  | Array (t : Ty) (n : Nat)
  | DynamicArray (t : Ty)
  | Slice (t : Ty)
  | Pointer (t : Ty)
  | Function (params : List Ty) (ret : Ty)
  | Struct (name : String) (fields : List (String × Ty))
  | Enum (name : String) (variants : List (String × Option (List Ty)))
  | Generic (s : String)
  | Unknown
  deriving Repr

/-- Literal values, Rust enum `Literal` (`f64` modelled by `Rat`). -/
inductive Literal where
  | Integer (n : Int)
  | Float (q : Rat)
  | String (s : String)
  | Boolean (b : Bool)
  deriving Repr

/-- Binary operators, Rust enum `BinaryOp`. -/
inductive BinaryOp where
  | Add | Subtract | Multiply | Divide | Modulo
  | Equal | NotEqual | Less | LessEqual | Greater | GreaterEqual
  deriving Repr

/-- Patterns of an enum match arm, Rust enum `EnumPattern`. -/
inductive EnumPattern where
  | Variant (name : String) (binds : Option (List String))
  | Wildcard
  | Literal (l : Literal)
  deriving Repr

/-- Expressions, Rust enum `Expression` in `voltage-core/src/lib.rs`. -/
inductive Expression where
  | Literal (l : Literal)
  | Variable (name : String)
  | VariableDeclaration (name : String) (value : Expression) (explicit_type : Option Ty)
  | Binary (left : Expression) (operator : BinaryOp) (right : Expression)
  | Call (name : String) (arguments : List Expression)
  | FormatCall (name : String) (format_string : String) (arguments : List Expression)
  | ArrayLiteral (elements : List Expression)
  | ArrayAccess (array : Expression) (index : Expression)
  | ArrayAssignment (array : Expression) (index : Expression) (value : Expression)
  | StructDefinition (name : String) (fields : List (String × Ty))
  | StructInitialization (name : String) (fields : List (String × Expression))
  | StructFieldAccess (object : Expression) (field : String)
  | StructFieldAssignment (object : Expression) (field : String) (value : Expression)
  | EnumVariantCreation (enum_name : String) (variant_name : String) (values : List Expression)
  | EnumMatch (expression : Expression) (arms : List (EnumPattern × Expression))
  deriving Repr

mutual

/-- Statements, Rust enum `Statement` in `voltage-core/src/lib.rs` (the
`For` field `variable` is named `var` here: `variable` is reserved in
Lean). -/
inductive Statement where
  | Expression (e : Expression)
  | VariableDeclaration (name : String) (value : Expression) (explicit_type : Option Ty)
  | Block (stmts : List Statement)
  | Function (f : Function)
  | If (condition : Expression) (then_branch : List Statement)
       (elif_branches : List (Expression × List Statement))
       (else_branch : Option (List Statement))
  | While (condition : Expression) (body : List Statement)
  | For (var : String) (iterable : Expression) (body : List Statement)
  | Break
  | Continue
  | UnsafeBlock (stmts : List Statement)
  | Import (module_name : String)
  | ImportAs (module_name : String) (aliasName : String)

/-- A function declaration, Rust struct `Function`. -/
inductive Function where
  | mk (name : String) (parameters : List (String × Ty)) (return_type : Ty)
       (body : List Statement)

end

deriving instance Repr for Statement

deriving instance Repr for Function

/-- The name of a `Function`. -/
def Function.name : Function → String
  | .mk n _ _ _ => n

/-- The parameter list of a `Function`. -/
def Function.parameters : Function → List (String × Ty)
  | .mk _ p _ _ => p

/-- The return type of a `Function`. -/
def Function.return_type : Function → Ty
  | .mk _ _ r _ => r

/-- The body of a `Function`. -/
def Function.body : Function → List Statement
  | .mk _ _ _ b => b

/-- The instruction set, Rust enum `Bytecode` in `voltage-vm/src/vm.rs`. -/
inductive Bytecode where
  | LoadConst (idx : Nat)
  | StoreLocal (idx : Nat)
  | LoadLocal (idx : Nat)
  | StoreGlobal (name : String)
  | LoadGlobal (name : String)
  | Add | Sub | Mul | Div | Mod
  | Eq | Ne | Lt | Gt | Le | Ge
  | Jump (target : Nat)
  | JumpIfFalse (target : Nat)
  | JumpIfTrue (target : Nat)
  | Call (num_args : Nat)
  | CallBuiltin (builtin_id : Nat)
  | Return
  | Print | Puts
  | Pop | Dup
  deriving DecidableEq, Repr

/-- Runtime values, Rust enum `RuntimeValue` (`i64` as `Int` with explicit
wrapping in the arithmetic, `f64` as `Rat`). -/
inductive RuntimeValue where
  | Integer (n : Int)
  | Float (q : Rat)
  | String (s : String)
  | Boolean (b : Bool)
  | Function (name : String) (ip : Nat) (num_params : Nat)
  | Null
  deriving DecidableEq, Repr

/-- `f64::EPSILON`, the tolerance of the manual `PartialEq` for floats. -/
def f64Epsilon : Rat := 1 / 2 ^ 52

/-- The manual `PartialEq for RuntimeValue`: floats compare within
`f64::EPSILON`, functions by name, cross-variant comparisons are never
equal. -/
def rvEq : RuntimeValue → RuntimeValue → Bool
  | .Integer a, .Integer b => a = b
  | .Float a, .Float b => |a - b| < f64Epsilon
  | .String a, .String b => a = b
  | .Boolean a, .Boolean b => a = b
  | .Function a _ _, .Function b _ _ => a = b
  | .Null, .Null => true
  | _, _ => false

/-- Two's-complement wrapping of an integer into the `i64` range,
modelling Rust release-mode `i64` arithmetic. -/
def wrap64 (n : Int) : Int := (n + 2 ^ 63) % 2 ^ 64 - 2 ^ 63

/-- Rust `Debug` rendering of a `RuntimeValue` (the display of `Float`
payloads is abstracted via `Rat`). -/
def rvDebug : RuntimeValue → String
  | .Integer n => "Integer(" ++ toString n ++ ")"
  | .Float q => "Float(" ++ toString q ++ ")"
  | .String s => "String(" ++ rustStrDebug s ++ ")"
  | .Boolean b => "Boolean(" ++ toString b ++ ")"
  | .Function n ip np =>
      "Function \x7b name: " ++ rustStrDebug n ++ ", ip: " ++ toString ip ++
      ", num_params: " ++ toString np ++ " \x7d"
  | .Null => "Null"

/-- Rust `Debug` rendering of a `Bytecode` instruction (derived `Debug`). -/
def bytecodeDebug : Bytecode → String
  | .LoadConst i => "LoadConst(" ++ toString i ++ ")"
  | .StoreLocal i => "StoreLocal(" ++ toString i ++ ")"
  | .LoadLocal i => "LoadLocal(" ++ toString i ++ ")"
  | .StoreGlobal s => "StoreGlobal(" ++ rustStrDebug s ++ ")"
  | .LoadGlobal s => "LoadGlobal(" ++ rustStrDebug s ++ ")"
  | .Add => "Add" | .Sub => "Sub" | .Mul => "Mul" | .Div => "Div" | .Mod => "Mod"
  | .Eq => "Eq" | .Ne => "Ne" | .Lt => "Lt" | .Gt => "Gt" | .Le => "Le" | .Ge => "Ge"
  | .Jump t => "Jump(" ++ toString t ++ ")"
  | .JumpIfFalse t => "JumpIfFalse(" ++ toString t ++ ")"
  | .JumpIfTrue t => "JumpIfTrue(" ++ toString t ++ ")"
  | .Call n => "Call(" ++ toString n ++ ")"
  | .CallBuiltin n => "CallBuiltin(" ++ toString n ++ ")"
  | .Return => "Return" | .Print => "Print" | .Puts => "Puts"
  | .Pop => "Pop" | .Dup => "Dup"

/-- The state of `VirtualMachine`: instruction vector, constant pool,
operand stack (top at the head of the list, matching `Vec` push/pop at
the back), globals as an association list modelling the `HashMap`, the
instruction pointer, and the text written to standard output so far. -/
structure VirtualMachine where
  bytecode : List Bytecode
  constants : List RuntimeValue
  stack : List RuntimeValue
  globals : List (String × RuntimeValue)
  ip : Nat
  output : String
  deriving Repr

/-- `VirtualMachine::new()` followed by `load_bytecode`. -/
def VirtualMachine.load (bytecode : List Bytecode) (constants : List RuntimeValue) :
    VirtualMachine :=
  { bytecode := bytecode, constants := constants, stack := [], globals := [],
    ip := 0, output := "" }

/-- `HashMap::get` on the global environment. -/
def globalsGet (g : List (String × RuntimeValue)) (name : String) :
    Option RuntimeValue :=
  (g.find? (fun p => p.1 = name)).map (·.2)

/-- `HashMap::insert` on the global environment (replaces an existing
binding). -/
def globalsInsert (g : List (String × RuntimeValue)) (name : String)
    (v : RuntimeValue) : List (String × RuntimeValue) :=
  if (g.find? (fun p => p.1 = name)).isSome then
    g.map (fun p => if p.1 = name then (name, v) else p)
  else g ++ [(name, v)]

/-- `VirtualMachine::value_to_string` (the display of floats is
abstracted via `Rat`). -/
def value_to_string : RuntimeValue → String
  | .Integer i => toString i
  | .Float f => toString f
  | .String s => s
  | .Boolean b => toString b
  | .Function name _ _ => "<function " ++ name ++ ">"
  | .Null => "null"

/-- Truncation of a rational toward zero (used for the `f64` `%`
remainder, which keeps the sign of the dividend). -/
def ratTrunc (q : Rat) : Int := if 0 ≤ q then ⌊q⌋ else ⌈q⌉

/-- Rust `f64` `%`: `a - b * trunc(a / b)`, modelled exactly on `Rat`. -/
def ratFmod (a b : Rat) : Rat := a - b * (ratTrunc (a / b) : Int)

/-- `VirtualMachine::pop_value`: pop the operand stack or fail with the
`Stack underflow` error. -/
def pop_value (vm : VirtualMachine) :
    Except String (RuntimeValue × VirtualMachine) :=
  match vm.stack with
  | [] => .error "Stack underflow"
  | v :: rest => .ok (v, { vm with stack := rest })

/-- Outcome of dispatching one instruction: continue at the new state,
or leave the loop with a runtime error. -/
inductive StepRes where
  | next (vm : VirtualMachine)
  | fail (msg : String) (vm : VirtualMachine)

/-- Shared shape of the binary arithmetic arms: pop right then left,
require same-variant numeric operands, push the result. -/
def binArith (vm : VirtualMachine)
    (intOp : Int → Int → Except String Int)
    (floatOp : Rat → Rat → Except String Rat)
    (typeErr : String) : StepRes :=
  match pop_value vm with
  | .error e => .fail e vm
  | .ok (right, vm) =>
    match pop_value vm with
    | .error e => .fail e vm
    | .ok (left, vm) =>
      match left, right with
      | .Integer a, .Integer b =>
        match intOp a b with
        | .ok r => .next { vm with stack := .Integer r :: vm.stack }
        | .error e => .fail e vm
      | .Float a, .Float b =>
        match floatOp a b with
        | .ok r => .next { vm with stack := .Float r :: vm.stack }
        | .error e => .fail e vm
      | _, _ => .fail typeErr vm

/-- Shared shape of the ordering comparison arms: pop right then left,
require same-variant numeric operands, push the boolean result. -/
def binCompare (vm : VirtualMachine)
    (intOp : Int → Int → Bool) (floatOp : Rat → Rat → Bool) : StepRes :=
  match pop_value vm with
  | .error e => .fail e vm
  | .ok (right, vm) =>
    match pop_value vm with
    | .error e => .fail e vm
    | .ok (left, vm) =>
      match left, right with
      | .Integer a, .Integer b => .next { vm with stack := .Boolean (intOp a b) :: vm.stack }
      | .Float a, .Float b => .next { vm with stack := .Boolean (floatOp a b) :: vm.stack }
      | _, _ => .fail "Type error: Cannot compare non-numeric values" vm

/-- Dispatch of one already-fetched instruction; `vm.ip` has been
advanced past it, mirroring `self.ip += 1` before the `match`. -/
def stepInstr (instruction : Bytecode) (vm : VirtualMachine) : StepRes :=
  match instruction with
  | .LoadConst index =>
    -- Rust indexes the pool without a check; out of range would panic
    match vm.constants.get? index with
    | some value => .next { vm with stack := value :: vm.stack }
    | none => .fail "panic: index out of bounds" vm
  | .Add =>
    binArith vm (fun a b => .ok (wrap64 (a + b))) (fun a b => .ok (a + b))
      "Type error: Cannot add non-numeric values"
  | .Sub =>
    binArith vm (fun a b => .ok (wrap64 (a - b))) (fun a b => .ok (a - b))
      "Type error: Cannot subtract non-numeric values"
  | .Mul =>
    binArith vm (fun a b => .ok (wrap64 (a * b))) (fun a b => .ok (a * b))
      "Type error: Cannot multiply non-numeric values"
  | .Div =>
    binArith vm
      (fun a b => if b = 0 then .error "Division by zero" else .ok (Int.tdiv a b))
      (fun a b => if b = 0 then .error "Division by zero" else .ok (a / b))
      "Type error: Cannot divide non-numeric values"
  | .Mod =>
    binArith vm
      (fun a b => if b = 0 then .error "Modulo by zero" else .ok (Int.tmod a b))
      (fun a b => if b = 0 then .error "Modulo by zero" else .ok (ratFmod a b))
      "Type error: Cannot perform modulo on non-numeric values"
  | .Eq =>
    match pop_value vm with
    | .error e => .fail e vm
    | .ok (right, vm) =>
      match pop_value vm with
      | .error e => .fail e vm
      | .ok (left, vm) => .next { vm with stack := .Boolean (rvEq left right) :: vm.stack }
  | .Ne =>
    match pop_value vm with
    | .error e => .fail e vm
    | .ok (right, vm) =>
      match pop_value vm with
      | .error e => .fail e vm
      | .ok (left, vm) => .next { vm with stack := .Boolean (!rvEq left right) :: vm.stack }
  | .Lt => binCompare vm (fun a b => a < b) (fun a b => a < b)
  | .Gt => binCompare vm (fun a b => a > b) (fun a b => a > b)
  | .Le => binCompare vm (fun a b => a ≤ b) (fun a b => a ≤ b)
  | .Ge => binCompare vm (fun a b => a ≥ b) (fun a b => a ≥ b)
  | .Print =>
    match pop_value vm with
    | .error e => .fail e vm
    | .ok (value, vm) => .next { vm with output := vm.output ++ value_to_string value }
  | .Puts =>
    match pop_value vm with
    | .error e => .fail e vm
    | .ok (value, vm) =>
      .next { vm with output := vm.output ++ value_to_string value ++ "\n" }
  | .StoreLocal index =>
    -- no local storage exists; the value is popped and logged
    match pop_value vm with
    | .error e => .fail e vm
    | .ok (value, vm) =>
      .next { vm with
                output := vm.output ++ "Storing local var " ++ toString index ++
                  ": " ++ rvDebug value ++ "\n" }
  | .LoadLocal index =>
    -- no local storage exists; nothing is pushed, only a log line
    .next { vm with output := vm.output ++ "Loading local var " ++ toString index ++ "\n" }
  | .Call num_args =>
    match pop_value vm with
    | .error e => .fail e vm
    | .ok (func_name_value, vm) =>
      match func_name_value with
      | .String func_name =>
        if func_name = "puts" then
          if num_args = 1 then
            match pop_value vm with
            | .error e => .fail e vm
            | .ok (arg, vm) =>
              .next { vm with
                        output := vm.output ++ value_to_string arg ++ "\n",
                        stack := .Null :: vm.stack }
          else .fail "puts expects 1 argument" vm
        else if func_name = "print" then
          if num_args = 1 then
            match pop_value vm with
            | .error e => .fail e vm
            | .ok (arg, vm) =>
              .next { vm with
                        output := vm.output ++ value_to_string arg,
                        stack := .Null :: vm.stack }
          else .fail "print expects 1 argument" vm
        else .fail ("Unknown function: " ++ func_name) vm
      | _ => .fail "Function call expects function name as string" vm
  | .CallBuiltin builtin_id =>
    if builtin_id = 0 then
      match pop_value vm with
      | .error e => .fail e vm
      | .ok (arg, vm) =>
        .next { vm with
                  output := vm.output ++ value_to_string arg ++ "\n",
                  stack := .Null :: vm.stack }
    else if builtin_id = 1 then
      match pop_value vm with
      | .error e => .fail e vm
      | .ok (arg, vm) =>
        .next { vm with
                  output := vm.output ++ value_to_string arg,
                  stack := .Null :: vm.stack }
    else .fail ("Unknown builtin function ID: " ++ toString builtin_id) vm
  | .Return =>
    -- pops the would-be return value if any and simply continues
    match vm.stack with
    | [] => .next vm
    | _ :: rest => .next { vm with stack := rest }
  | .Pop =>
    match vm.stack with
    | [] => .next vm
    | _ :: rest => .next { vm with stack := rest }
  | .LoadGlobal name =>
    match globalsGet vm.globals name with
    | some value => .next { vm with stack := value :: vm.stack }
    | none =>
      -- absent name: the code pushes a default Integer(0) instead of
      -- raising UndefinedVariable
      .next { vm with stack := .Integer 0 :: vm.stack }
  | .StoreGlobal name =>
    match pop_value vm with
    | .error e => .fail e vm
    | .ok (value, vm) => .next { vm with globals := globalsInsert vm.globals name value }
  | .Jump _ | .JumpIfFalse _ | .JumpIfTrue _ | .Dup =>
    -- the catch-all `_` arm of the dispatch match
    .fail ("Unsupported instruction: " ++ bytecodeDebug instruction) vm

/-- One iteration of the dispatch loop body: fetch the instruction at
`ip`, advance `ip`, dispatch.  The `none` case is unreachable under the
loop's bound check. -/
def step (vm : VirtualMachine) : StepRes :=
  match vm.bytecode.get? vm.ip with
  | none => .fail "panic: index out of bounds" vm
  | some instruction => stepInstr instruction { vm with ip := vm.ip + 1 }

/-- How the dispatch loop ended: ran past the end of the instruction
vector, or left with a runtime error. -/
inductive LoopEnd where
  | finished (vm : VirtualMachine)
  | failed (msg : String) (vm : VirtualMachine)

/-- The dispatch loop of `VirtualMachine::run`, with explicit fuel
(`none` means the fuel ran out; the machine itself has no step limit). -/
def execLoop : Nat → VirtualMachine → Option LoopEnd
  | 0, _ => none
  | fuel + 1, vm =>
    if vm.ip < vm.bytecode.length then
      match step vm with
      | .next vm' => execLoop fuel vm'
      | .fail msg vm' => some (.failed msg vm')
    else some (.finished vm)

/-- `VirtualMachine::run`: drive the dispatch loop, then return the top
of the stack (or `Null`) on normal exit.  The second component is the
machine state after the run, whose `output` field is the text written to
standard output. -/
def run (fuel : Nat) (vm : VirtualMachine) :
    Option (Except String RuntimeValue × VirtualMachine) :=
  match execLoop fuel vm with
  | none => none
  | some (.finished vm) =>
    some (.ok ((vm.stack.head?).getD .Null), { vm with stack := vm.stack.tail })
  | some (.failed msg vm) => some (.error msg, vm)

/-- The state of `BytecodeCompiler` in `voltage-vm/src/compiler.rs`: the
output instruction list, the append-only constant pool, and the lines
the compiler itself prints to standard output (`println!` calls). -/
structure BytecodeCompiler where
  bytecode : List Bytecode
  constants : List RuntimeValue
  debugOut : List String
  deriving Repr

/-- `BytecodeCompiler::new()`. -/
def BytecodeCompiler.new : BytecodeCompiler :=
  { bytecode := [], constants := [], debugOut := [] }

/-- `BytecodeCompiler::add_constant`: append to the pool (no dedup) and
return the new index. -/
def add_constant (c : BytecodeCompiler) (value : RuntimeValue) :
    Nat × BytecodeCompiler :=
  (c.constants.length, { c with constants := c.constants ++ [value] })

/-- Push one instruction onto the output list
(`self.bytecode.push(..)`). -/
def emit (c : BytecodeCompiler) (b : Bytecode) : BytecodeCompiler :=
  { c with bytecode := c.bytecode ++ [b] }

/-- Append one compile-time `println!` line. -/
def emitDebug (c : BytecodeCompiler) (s : String) : BytecodeCompiler :=
  { c with debugOut := c.debugOut ++ [s] }

/-- `BytecodeCompiler::literal_to_runtime_value`. -/
def literal_to_runtime_value : Literal → Except String RuntimeValue
  | .Integer n => .ok (.Integer n)
  | .Float f => .ok (.Float f)
  | .String s => .ok (.String s)
  | .Boolean b => .ok (.Boolean b)

/-- The opcode matching a `BinaryOp` (the operator `match` in
`compile_expression`). -/
def binaryOpcode : BinaryOp → Bytecode
  | .Add => .Add
  | .Subtract => .Sub
  | .Multiply => .Mul
  | .Divide => .Div
  | .Modulo => .Mod
  | .Equal => .Eq
  | .NotEqual => .Ne
  | .Less => .Lt
  | .LessEqual => .Le
  | .Greater => .Gt
  | .GreaterEqual => .Ge

mutual

/-- `BytecodeCompiler::compile_expression`, with explicit fuel for the
recursion over the AST. -/
def compile_expression : Nat → Expression → BytecodeCompiler →
    Except String BytecodeCompiler
  | 0, _, _ => .error "out of fuel"
  | fuel + 1, e, c =>
    match e with
    | .Literal lit => do
      let value ← literal_to_runtime_value lit
      let (index, c) := add_constant c value
      .ok (emit c (.LoadConst index))
    | .VariableDeclaration _ _ _ =>
      .error "VariableDeclaration expression not expected in this context"
    | .Variable name => .ok (emit c (.LoadGlobal name))
    | .Binary left operator right => do
      let c ← compile_expression fuel left c
      let c ← compile_expression fuel right c
      .ok (emit c (binaryOpcode operator))
    | .Call name arguments => do
      let c ← compile_expr_list fuel arguments c
      if name = "print" then
        if arguments.length = 1 then .ok (emit c (.CallBuiltin 1))
        else .error "print function expects 1 argument"
      else if name = "puts" then
        if arguments.length = 1 then .ok (emit c (.CallBuiltin 0))
        else .error "puts function expects 1 argument"
      else do
        -- user functions: push the function name constant and Call
        let (func_name_const, c) := add_constant c (.String name)
        let c := emit c (.LoadConst func_name_const)
        .ok (emit c (.Call arguments.length))
    | .FormatCall name format_string arguments => do
      let c := emitDebug c ("Format call: " ++ name ++ " with format string: " ++
        format_string ++ " and " ++ toString arguments.length ++ " args")
      -- the format string is added to the pool but never loaded
      let (_, c) := add_constant c (.String format_string)
      let c ← compile_expr_list fuel arguments c
      if name = "puts" then .ok (emit c (.CallBuiltin 0))
      else if name = "print" then .ok (emit c (.CallBuiltin 1))
      else .error ("Unknown function: " ++ name)
    | .ArrayLiteral elements => do
      let c ← compile_expr_list fuel elements c
      let (index, c) := add_constant c
        (.String ("array_" ++ toString elements.length))
      .ok (emit c (.LoadConst index))
    | .ArrayAccess array index => do
      let c ← compile_expression fuel array c
      let c ← compile_expression fuel index c
      let (const_idx, c) := add_constant c (.Integer 0)
      .ok (emit c (.LoadConst const_idx))
    | .ArrayAssignment array index value => do
      let c ← compile_expression fuel array c
      let c ← compile_expression fuel index c
      let c ← compile_expression fuel value c
      let c := emit (emit (emit c .Pop) .Pop) .Pop
      let (const_idx, c) := add_constant c .Null
      .ok (emit c (.LoadConst const_idx))
    | .StructDefinition _ _ => do
      let (const_idx, c) := add_constant c .Null
      .ok (emit c (.LoadConst const_idx))
    | .StructInitialization _ fields => do
      let c ← compile_field_list fuel fields c
      let (const_idx, c) := add_constant c (.String "struct_instance")
      .ok (emit c (.LoadConst const_idx))
    | .StructFieldAccess object field => do
      let c ← compile_expression fuel object c
      let (const_idx, c) := add_constant c (.String field)
      .ok (emit c (.LoadConst const_idx))
    | .StructFieldAssignment object field value => do
      let c ← compile_expression fuel object c
      let c ← compile_expression fuel value c
      let c := emit (emit c .Pop) .Pop
      let (const_idx, c) := add_constant c (.String field)
      .ok (emit c (.LoadConst const_idx))
    | .EnumVariantCreation _ variant_name values => do
      let c ← compile_expr_list fuel values c
      let (const_idx, c) := add_constant c (.String ("enum_" ++ variant_name))
      .ok (emit c (.LoadConst const_idx))
    | .EnumMatch _ _ => do
      let (const_idx, c) := add_constant c .Null
      .ok (emit c (.LoadConst const_idx))

/-- Compile each expression of a list in order (the argument/element
loops of `compile_expression`). -/
def compile_expr_list : Nat → List Expression → BytecodeCompiler →
    Except String BytecodeCompiler
  | 0, _, _ => .error "out of fuel"
  | _ + 1, [], c => .ok c
  | fuel + 1, e :: rest, c => do
    let c ← compile_expression fuel e c
    compile_expr_list fuel rest c

/-- Compile the value of each struct-initialization field in order. -/
def compile_field_list : Nat → List (String × Expression) → BytecodeCompiler →
    Except String BytecodeCompiler
  | 0, _, _ => .error "out of fuel"
  | _ + 1, [], c => .ok c
  | fuel + 1, f :: rest, c => do
    let c ← compile_expression fuel f.2 c
    compile_field_list fuel rest c

end

mutual

/-- `BytecodeCompiler::compile_statement`, with explicit fuel for the
recursion over the AST. -/
def compile_statement : Nat → Statement → BytecodeCompiler →
    Except String BytecodeCompiler
  | 0, _, _ => .error "out of fuel"
  | fuel + 1, stmt, c =>
    match stmt with
    | .Expression expr => do
      let c ← compile_expression fuel expr c
      -- pop the result: expressions as statements return nothing
      .ok (emit c .Pop)
    | .VariableDeclaration name value _ => do
      let c ← compile_expression fuel value c
      -- the value is popped: there is no local-variable handling
      let c := emit c .Pop
      .ok (emitDebug c ("Compiling variable declaration: " ++ name))
    | .Block statements => compile_stmt_list fuel statements c
    | .Function _ => .error "Nested functions not implemented yet"
    | .If condition then_branch elif_branches else_branch => do
      -- all branches are compiled without any actual control flow
      let c ← compile_expression fuel condition c
      let c ← compile_stmt_list fuel then_branch c
      let c ← compile_elif_list fuel elif_branches c
      match else_branch with
      | some else_body => compile_stmt_list fuel else_body c
      | none => .ok c
    | .While condition body => do
      -- compiled without actual looping
      let c ← compile_expression fuel condition c
      compile_stmt_list fuel body c
    | .For _ iterable body => do
      -- compiled without actual iteration
      let c ← compile_expression fuel iterable c
      compile_stmt_list fuel body c
    | .Break => .ok c
    | .Continue => .ok c
    | .UnsafeBlock statements => compile_stmt_list fuel statements c
    | .Import module_name =>
      .ok (emitDebug c ("Importing module: " ++ module_name))
    | .ImportAs module_name aliasName =>
      .ok (emitDebug c ("Importing module: " ++ module_name ++ " as " ++ aliasName))

/-- Compile each statement of a list in order (bodies and blocks). -/
def compile_stmt_list : Nat → List Statement → BytecodeCompiler →
    Except String BytecodeCompiler
  | 0, _, _ => .error "out of fuel"
  | _ + 1, [], c => .ok c
  | fuel + 1, s :: rest, c => do
    let c ← compile_statement fuel s c
    compile_stmt_list fuel rest c

/-- Compile each `(condition, body)` pair of the elif list in order. -/
def compile_elif_list : Nat → List (Expression × List Statement) →
    BytecodeCompiler → Except String BytecodeCompiler
  | 0, _, _ => .error "out of fuel"
  | _ + 1, [], c => .ok c
  | fuel + 1, eb :: rest, c => do
    let c ← compile_expression fuel eb.1 c
    let c ← compile_stmt_list fuel eb.2 c
    compile_elif_list fuel rest c

end

/-- `BytecodeCompiler::compile_function`: compile the body statements,
then append the trailing `LoadConst 0; Return`, and return the
instruction sequence with its constant pool. -/
def compile_function (fuel : Nat) (func : Function) (c : BytecodeCompiler) :
    Except String (List Bytecode × List RuntimeValue × BytecodeCompiler) := do
  let c ← compile_stmt_list fuel func.body c
  let (const_index, c) := add_constant c (.Integer 0)
  let c := emit c (.LoadConst const_index)
  let c := emit c .Return
  .ok (c.bytecode, c.constants, c)

/-- `str::contains` on substrings: whether `needle` occurs in `hay`. -/
def listContainsSub (needle : List Char) : List Char → Bool
  | [] => prefixMatches needle []
  | c :: rest => prefixMatches needle (c :: rest) || listContainsSub needle rest

/-- Rust `hay.contains(needle)` for strings. -/
def strContains (hay needle : String) : Bool :=
  listContainsSub needle.data hay.data

/-- The state of `Parser` in `voltage-parser/src/parser.rs`: the token
vector and the cursor. -/
structure ParserState where
  tokens : List Token
  current : Nat
  deriving DecidableEq, Repr

/-- A Rust panic raised while parsing (`panic!`, `.expect(..)`,
`.unwrap()` or an out-of-bounds index).  A panic unwinds and terminates
the process; it is never surfaced to the caller of `parse`. -/
structure Panic where
  msg : String
  deriving DecidableEq, Repr

/-- `self.tokens[i]` as a safe lookup. -/
def tokenAt (s : ParserState) (i : Nat) : Option Token :=
  s.tokens.get? i

/-- `Parser::is_at_end`: `current >= tokens.len()`. -/
def is_at_end (s : ParserState) : Bool :=
  s.tokens.length ≤ s.current

/-- `std::mem::discriminant` equality on tokens: payloads are ignored. -/
def sameKind : Token → Token → Bool
  | .Identifier _, .Identifier _ => true
  | .Number _, .Number _ => true
  | .String _, .String _ => true
  | a, b => a = b

/-- `Parser::check`: discriminant equality against the current token,
false at end of input. -/
def check (s : ParserState) (token : Token) : Bool :=
  if is_at_end s then false
  else
    match tokenAt s s.current with
    | some t => sameKind t token
    | none => false

/-- Advance the cursor by one (`self.current += 1`). -/
def advanceState (s : ParserState) : ParserState :=
  { s with current := s.current + 1 }

/-- `Parser::match_token`: consume the current token if it checks. -/
def match_token (s : ParserState) (token : Token) : Bool × ParserState :=
  if check s token then (true, advanceState s) else (false, s)

/-- `Parser::consume`: consume an expected token or describe the
mismatch (`Expected {:?}, got {}`) as an error value. -/
def consume (s : ParserState) (token : Token) : Except String Unit × ParserState :=
  if check s token then (.ok (), advanceState s)
  else
    let current_token_str :=
      if is_at_end s then "EOF"
      else tokenDebug ((tokenAt s s.current).getD .Fn)
    (.error ("Expected " ++ tokenDebug token ++ ", got " ++ current_token_str), s)

/-- `Parser::consume_identifier`. -/
def consume_identifier (s : ParserState) : Except String String × ParserState :=
  if is_at_end s then (.error "Expected identifier, got EOF", s)
  else
    match tokenAt s s.current with
    | some (.Identifier name) => (.ok name, advanceState s)
    | some t => (.error ("Expected identifier, got " ++ tokenDebug t), s)
    | none => (.error "Expected identifier, got EOF", s)

/-- `Parser::previous_token` (panics at cursor 0). -/
def previous_token (s : ParserState) : Except Panic Token :=
  if s.current = 0 then .error ⟨"No previous token available"⟩
  else
    match tokenAt s (s.current - 1) with
    | some t => .ok t
    | none => .error ⟨"panic: index out of bounds"⟩

/-- `Result::expect(msg)`: unwrap or panic with `msg: {err:?}`. -/
def expectR {α : Type} (r : Except String α) (msg : String) : Except Panic α :=
  match r with
  | .ok a => .ok a
  | .error e => .error ⟨msg ++ ": " ++ rustStrDebug e⟩

/-- `Result::unwrap()`: unwrap or panic. -/
def unwrapR {α : Type} (r : Except String α) : Except Panic α :=
  match r with
  | .ok a => .ok a
  | .error e => .error ⟨"called `Result::unwrap()` on an `Err` value: " ++ rustStrDebug e⟩

/-- Fuel exhaustion of the embedded parser (the Rust parser can loop
forever, e.g. on a stray right brace at top level; fuel makes the
embedding total). -/
def fuelPanic {α : Type} : Except Panic α := .error ⟨"out of fuel"⟩

/-- `Parser::parse_type`: a `Result` the callers inspect (never panics
except on an out-of-bounds index at end of input). -/
def parse_type (s : ParserState) : Except Panic (Except String Ty × ParserState) :=
  match tokenAt s s.current with
  | none => .error ⟨"panic: index out of bounds"⟩
  | some (.Identifier type_name) =>
    let s := advanceState s
    if type_name = "i32" ∨ type_name = "int" then .ok (.ok .Integer, s)
    else if type_name = "f64" ∨ type_name = "float" then .ok (.ok .Float, s)
    else if type_name = "bool" ∨ type_name = "boolean" then .ok (.ok .Boolean, s)
    else if type_name = "str" ∨ type_name = "string" then .ok (.ok .String, s)
    else if type_name = "void" then .ok (.ok .Void, s)
    else .ok (.error ("Unknown type: " ++ type_name), s)
  | some _ => .ok (.error "Expected type identifier", s)

mutual

/-- The `while` loop of `Parser::parse`. -/
def parseLoop : Nat → ParserState → List Statement →
    Except Panic (List Statement × ParserState)
  | 0, _, _ => fuelPanic
  | fuel + 1, s, acc =>
    if is_at_end s then .ok (acc, s)
    else do
      let (stmtOpt, s) ← declaration fuel s
      match stmtOpt with
      | some stmt => parseLoop fuel s (acc ++ [stmt])
      | none => parseLoop fuel s acc

/-- `Parser::declaration`. -/
def declaration : Nat → ParserState → Except Panic (Option Statement × ParserState)
  | 0, _ => fuelPanic
  | fuel + 1, s =>
    if is_at_end s || check s .RightBrace then .ok (none, s)
    else
      let (m, s) := match_token s .Fn
      if m then do
        let (st, s) ← function_declaration fuel s
        .ok (some st, s)
      else
        let (m, s) := match_token s .Let
        if m then do
          let (st, s) ← var_declaration fuel s
          .ok (some st, s)
        else if is_at_end s || check s .RightBrace then .ok (none, s)
        else statement fuel s

/-- `Parser::statement`. -/
def statement : Nat → ParserState → Except Panic (Option Statement × ParserState)
  | 0, _ => fuelPanic
  | fuel + 1, s =>
    if check s .RightBrace || is_at_end s then .ok (none, s)
    else
      let (m, s) := match_token s .If
      if m then do
        let (st, s) ← if_statement fuel s
        .ok (some st, s)
      else
        let (m, s) := match_token s .While
        if m then do
          let (st, s) ← while_statement fuel s
          .ok (some st, s)
        else
          let (m, s) := match_token s .For
          if m then do
            let (st, s) ← for_statement fuel s
            .ok (some st, s)
          else
            let (m, s) := match_token s .Break
            if m then do
              let (r, s) := consume s .Semi
              let _ ← expectR r "Expected \x27;\x27"
              .ok (some .Break, s)
            else
              let (m, s) := match_token s .Continue
              if m then do
                let (r, s) := consume s .Semi
                let _ ← expectR r "Expected \x27;\x27"
                .ok (some .Continue, s)
              else
                let (m, s) := match_token s .Unsafe
                if m then do
                  let (r, s) := consume s .LeftBrace
                  let _ ← expectR r "Expected \x27\x7b\x27 after unsafe block"
                  let (body, s) ← parse_block_contents fuel s
                  .ok (some (.UnsafeBlock body), s)
                else
                  let (m, s) := match_token s .Import
                  if m then do
                    let (r, s) := consume_identifier s
                    let module_name ← expectR r "Expected module name after import"
                    let (m2, s) := match_token s .As
                    if m2 then do
                      let (r, s) := consume_identifier s
                      let aliasName ← expectR r "Expected alias name after \x27as\x27"
                      .ok (some (.ImportAs module_name aliasName), s)
                    else .ok (some (.Import module_name), s)
                  else
                    let (m, s) := match_token s .LeftBrace
                    if m then do
                      let (stOpt, s) ← block fuel s
                      match stOpt with
                      | some st => .ok (some st, s)
                      | none => .error ⟨"called `Option::unwrap()` on a `None` value"⟩
                    else
                      if check s .RightBrace || is_at_end s then .ok (none, s)
                      else do
                        let (expr, s) ← expression fuel s
                        let (r, s) := consume s .Semi
                        let _ ← expectR r "Expected \x27;\x27"
                        .ok (some (.Expression expr), s)

/-- `Parser::function_declaration`. -/
def function_declaration : Nat → ParserState → Except Panic (Statement × ParserState)
  | 0, _ => fuelPanic
  | fuel + 1, s => do
    let (r, s) := consume_identifier s
    let name ← expectR r "Expected function name"
    let (r, s) := consume s .LeftParen
    let _ ← expectR r "Expected \x27(\x27 after function name"
    let (parameters, s) ←
      if check s .RightParen then pure ([], s)
      else paramsLoop fuel s []
    let (r, s) := consume s .RightParen
    let _ ← expectR r "Expected \x27)\x27"
    let (return_type, s) ←
      if check s .Arrow then do
        let (r, s) := consume s .Arrow
        let _ ← expectR r "Expected \x27->\x27 for return type"
        let (tres, s) ← parse_type s
        match tres with
        | .ok parsed_type => pure (parsed_type, s)
        | .error _ => pure (Ty.Void, s)
      else pure (Ty.Void, s)
    let (r, s) := consume s .LeftBrace
    let _ ← expectR r "Expected \x27\x7b\x27 for function body"
    let (body, s) ← parse_block_contents fuel s
    .ok (.Function ⟨name, parameters, return_type, body⟩, s)

/-- The parameter loop of `Parser::function_declaration`. -/
def paramsLoop : Nat → ParserState → List (String × Ty) →
    Except Panic (List (String × Ty) × ParserState)
  | 0, _, _ => fuelPanic
  | fuel + 1, s, acc => do
    let (r, s) := consume_identifier s
    let param_name ← expectR r "Expected parameter name"
    let (param_type, s) ←
      if check s .Colon then do
        let (r, s) := consume s .Colon
        let _ ← expectR r "Expected \x27:\x27 for parameter type"
        let (tres, s) ← parse_type s
        match tres with
        | .ok parsed_type => pure (parsed_type, s)
        | .error _ => pure (Ty.Unknown, s)
      else pure (Ty.Unknown, s)
    let acc := acc ++ [(param_name, param_type)]
    let (m, s) := match_token s .Comma
    if !m then .ok (acc, s)
    else if check s .RightParen then .ok (acc, s)
    else paramsLoop fuel s acc

/-- `Parser::var_declaration`. -/
def var_declaration : Nat → ParserState → Except Panic (Statement × ParserState)
  | 0, _ => fuelPanic
  | fuel + 1, s => do
    let (r, s) := consume_identifier s
    let name ← expectR r "Expected variable name"
    let (explicit_type, s) ←
      if check s .Colon then do
        let (r, s) := consume s .Colon
        let _ ← expectR r "Expected \x27:\x27 after variable name"
        let (tres, s) ← parse_type s
        match tres with
        | .ok parsed_type => pure (some parsed_type, s)
        | .error _ => pure (none, s)
      else pure (none, s)
    let (r, s) := consume s .Equals
    let _ ← expectR r "Expected \x27=\x27 after variable name"
    let (value, s) ← expression fuel s
    let (r, s) := consume s .Semi
    let _ ← expectR r "Expected \x27;\x27 after variable declaration"
    .ok (.VariableDeclaration name value explicit_type, s)

/-- `Parser::parse_block_contents`. -/
def parse_block_contents : Nat → ParserState →
    Except Panic (List Statement × ParserState)
  | 0, _ => fuelPanic
  | fuel + 1, s => do
    let (statements, s) ← blockLoop fuel s []
    let (r, s) := consume s .RightBrace
    let _ ← expectR r "Expected \x27\x7d\x27"
    .ok (statements, s)

/-- The statement loop of `Parser::parse_block_contents`. -/
def blockLoop : Nat → ParserState → List Statement →
    Except Panic (List Statement × ParserState)
  | 0, _, _ => fuelPanic
  | fuel + 1, s, acc =>
    if !check s .RightBrace && !is_at_end s then do
      let (stmtOpt, s) ← declaration fuel s
      match stmtOpt with
      | some st => blockLoop fuel s (acc ++ [st])
      | none => .ok (acc, s)
    else .ok (acc, s)

/-- `Parser::block` (consumes another left brace, then the contents). -/
def block : Nat → ParserState → Except Panic (Option Statement × ParserState)
  | 0, _ => fuelPanic
  | fuel + 1, s => do
    let (r, s) := consume s .LeftBrace
    let _ ← unwrapR r
    let (statements, s) ← parse_block_contents fuel s
    .ok (some (.Block statements), s)

/-- `Parser::expression`. -/
def expression : Nat → ParserState → Except Panic (Expression × ParserState)
  | 0, _ => fuelPanic
  | fuel + 1, s => assignment fuel s

/-- `Parser::assignment`: parse an equality, and silently consume a
trailing `=` doing nothing with it. -/
def assignment : Nat → ParserState → Except Panic (Expression × ParserState)
  | 0, _ => fuelPanic
  | fuel + 1, s => do
    let (expr, s) ← equality fuel s
    let (_, s) := match_token s .Equals
    .ok (expr, s)

/-- `Parser::equality`. -/
def equality : Nat → ParserState → Except Panic (Expression × ParserState)
  | 0, _ => fuelPanic
  | fuel + 1, s => do
    let (expr, s) ← comparison fuel s
    equalityLoop fuel expr s

/-- The operator loop of `Parser::equality`. -/
def equalityLoop : Nat → Expression → ParserState →
    Except Panic (Expression × ParserState)
  | 0, _, _ => fuelPanic
  | fuel + 1, expr, s =>
    let (m, s) := match_token s .Equal
    if m then do
      let prev ← previous_token s
      let operator ← (match prev with
        | Token.Equal => Except.ok BinaryOp.Equal
        | Token.NotEqual => Except.ok BinaryOp.NotEqual
        | _ => Except.error (⟨"Unexpected operator"⟩ : Panic))
      let (right, s) ← comparison fuel s
      equalityLoop fuel (.Binary expr operator right) s
    else
      let (m, s) := match_token s .NotEqual
      if m then do
        let prev ← previous_token s
        let operator ← (match prev with
          | Token.Equal => Except.ok BinaryOp.Equal
          | Token.NotEqual => Except.ok BinaryOp.NotEqual
          | _ => Except.error (⟨"Unexpected operator"⟩ : Panic))
        let (right, s) ← comparison fuel s
        equalityLoop fuel (.Binary expr operator right) s
      else .ok (expr, s)

/-- `Parser::comparison`. -/
def comparison : Nat → ParserState → Except Panic (Expression × ParserState)
  | 0, _ => fuelPanic
  | fuel + 1, s => do
    let (expr, s) ← term fuel s
    comparisonLoop fuel expr s

/-- The operator loop of `Parser::comparison`. -/
def comparisonLoop : Nat → Expression → ParserState →
    Except Panic (Expression × ParserState)
  | 0, _, _ => fuelPanic
  | fuel + 1, expr, s =>
    let (m1, s) := match_token s .Less
    let (m2, s) := if m1 then (false, s) else match_token s .LessEqual
    let (m3, s) := if m1 || m2 then (false, s) else match_token s .Greater
    let (m4, s) := if m1 || m2 || m3 then (false, s) else match_token s .GreaterEqual
    if m1 || m2 || m3 || m4 then do
      let prev ← previous_token s
      let operator ← (match prev with
        | Token.Less => Except.ok BinaryOp.Less
        | Token.LessEqual => Except.ok BinaryOp.LessEqual
        | Token.Greater => Except.ok BinaryOp.Greater
        | Token.GreaterEqual => Except.ok BinaryOp.GreaterEqual
        | _ => Except.error (⟨"Unexpected operator"⟩ : Panic))
      let (right, s) ← term fuel s
      comparisonLoop fuel (.Binary expr operator right) s
    else .ok (expr, s)

/-- `Parser::term`. -/
def term : Nat → ParserState → Except Panic (Expression × ParserState)
  | 0, _ => fuelPanic
  | fuel + 1, s => do
    let (expr, s) ← factor fuel s
    termLoop fuel expr s

/-- The operator loop of `Parser::term`. -/
def termLoop : Nat → Expression → ParserState →
    Except Panic (Expression × ParserState)
  | 0, _, _ => fuelPanic
  | fuel + 1, expr, s =>
    let (m1, s) := match_token s .Plus
    let (m2, s) := if m1 then (false, s) else match_token s .Minus
    if m1 || m2 then do
      let prev ← previous_token s
      let operator ← (match prev with
        | Token.Plus => Except.ok BinaryOp.Add
        | Token.Minus => Except.ok BinaryOp.Subtract
        | _ => Except.error (⟨"Unexpected operator"⟩ : Panic))
      let (right, s) ← factor fuel s
      termLoop fuel (.Binary expr operator right) s
    else .ok (expr, s)

/-- `Parser::factor`. -/
def factor : Nat → ParserState → Except Panic (Expression × ParserState)
  | 0, _ => fuelPanic
  | fuel + 1, s => do
    let (expr, s) ← unary fuel s
    factorLoop fuel expr s

/-- The operator loop of `Parser::factor`. -/
def factorLoop : Nat → Expression → ParserState →
    Except Panic (Expression × ParserState)
  | 0, _, _ => fuelPanic
  | fuel + 1, expr, s =>
    let (m1, s) := match_token s .Star
    let (m2, s) := if m1 then (false, s) else match_token s .Slash
    let (m3, s) := if m1 || m2 then (false, s) else match_token s .Percent
    if m1 || m2 || m3 then do
      let prev ← previous_token s
      let operator ← (match prev with
        | Token.Star => Except.ok BinaryOp.Multiply
        | Token.Slash => Except.ok BinaryOp.Divide
        | Token.Percent => Except.ok BinaryOp.Modulo
        | _ => Except.error (⟨"Unexpected operator"⟩ : Panic))
      let (right, s) ← unary fuel s
      factorLoop fuel (.Binary expr operator right) s
    else .ok (expr, s)

/-- `Parser::unary` (delegates to `call`). -/
def unary : Nat → ParserState → Except Panic (Expression × ParserState)
  | 0, _ => fuelPanic
  | fuel + 1, s => call fuel s

/-- `Parser::call`. -/
def call : Nat → ParserState → Except Panic (Expression × ParserState)
  | 0, _ => fuelPanic
  | fuel + 1, s => do
    let (expr, s) ← primary fuel s
    callLoop fuel expr s

/-- The postfix loop of `Parser::call`: call arguments, indexing, and
field access. -/
def callLoop : Nat → Expression → ParserState →
    Except Panic (Expression × ParserState)
  | 0, _, _ => fuelPanic
  | fuel + 1, expr, s =>
    let (m, s) := match_token s .LeftParen
    if m then do
      let (expr, s) ← finish_call fuel expr s
      callLoop fuel expr s
    else
      let (m, s) := match_token s .LeftBracket
      if m then do
        let (index, s) ← expression fuel s
        let (r, s) := consume s .RightBracket
        let _ ← expectR r "Expected \x27]\x27"
        callLoop fuel (.ArrayAccess expr index) s
      else
        let (m, s) := match_token s .Dot
        if m then
          match tokenAt s s.current with
          | none => .error ⟨"panic: index out of bounds"⟩
          | some (.Identifier field_name) => do
            let s := advanceState s
            -- a method call just consumes the paren; treated as field access
            let (_, s) := match_token s .LeftParen
            callLoop fuel (.StructFieldAccess expr field_name) s
          | some _ => .error ⟨"Expected field name after \x27.\x27"⟩
        else .ok (expr, s)

/-- `Parser::finish_call`: the argument list, then the format-call
rewrite for `puts`/`print` whose first argument is a string literal
containing the placeholder braces. -/
def finish_call : Nat → Expression → ParserState →
    Except Panic (Expression × ParserState)
  | 0, _, _ => fuelPanic
  | fuel + 1, callee, s => do
    let (arguments, s) ←
      if check s .RightParen then pure ([], s)
      else argsLoop fuel s []
    let (r, s) := consume s .RightParen
    let _ ← expectR r "Expected \x27)\x27"
    match callee with
    | .Variable name =>
      if (name = "puts" ∨ name = "print") ∧ arguments.isEmpty = false then
        match arguments with
        | .Literal (.String format_str) :: _ =>
          if strContains format_str "\x7b\x7d" then
            .ok (.FormatCall name format_str (arguments.drop 1), s)
          else .ok (.Call name arguments, s)
        | _ => .ok (.Call name arguments, s)
      else .ok (.Call name arguments, s)
    | _ =>
      -- panic!("Only variable names can be called (got {:?})", callee);
      -- the Debug payload of the callee is elided here
      .error ⟨"Only variable names can be called"⟩

/-- The argument loop of `Parser::finish_call`. -/
def argsLoop : Nat → ParserState → List Expression →
    Except Panic (List Expression × ParserState)
  | 0, _, _ => fuelPanic
  | fuel + 1, s, acc => do
    let (arg, s) ← expression fuel s
    let acc := acc ++ [arg]
    let (m, s) := match_token s .Comma
    if !m then .ok (acc, s)
    else argsLoop fuel s acc

/-- `Parser::primary`. -/
def primary : Nat → ParserState → Except Panic (Expression × ParserState)
  | 0, _ => fuelPanic
  | fuel + 1, s =>
    if s.tokens.length ≤ s.current then .error ⟨"Unexpected end of input"⟩
    else
      let (m, s) := match_token s .LeftBracket
      if m then do
        let (elements, s) ←
          if check s .RightBracket then pure ([], s)
          else arrayElemsLoop fuel s []
        let (r, s) := consume s .RightBracket
        let _ ← expectR r "Expected \x27]\x27"
        .ok (.ArrayLiteral elements, s)
      else
        let (m, s) := match_token s .LeftParen
        if m then do
          let (expr, s) ← expression fuel s
          let (r, s) := consume s .RightParen
          let _ ← expectR r "Expected \x27)\x27"
          .ok (expr, s)
        else
          match tokenAt s s.current with
          | some (.Number n) => .ok (.Literal (.Integer n), advanceState s)
          | some (.String str) => .ok (.Literal (.String str), advanceState s)
          | some (.Identifier name) =>
            if name = "true" then .ok (.Literal (.Boolean true), advanceState s)
            else if name = "false" then .ok (.Literal (.Boolean false), advanceState s)
            else
              if s.current + 1 < s.tokens.length ∧
                  tokenAt s (s.current + 1) = some Token.LeftBrace then
                struct_initialization fuel name (advanceState s)
              else if s.current + 1 < s.tokens.length ∧
                  tokenAt s (s.current + 1) = some Token.DoubleColon then
                enum_variant_creation fuel name (advanceState s)
              else .ok (.Variable name, advanceState s)
          | some t => .error ⟨"Expected expression, got " ++ tokenDebug t⟩
          | none => .error ⟨"panic: index out of bounds"⟩

/-- The element loop of the array-literal case of `Parser::primary`. -/
def arrayElemsLoop : Nat → ParserState → List Expression →
    Except Panic (List Expression × ParserState)
  | 0, _, _ => fuelPanic
  | fuel + 1, s, acc => do
    let (element, s) ← expression fuel s
    let acc := acc ++ [element]
    let (m, s) := match_token s .Comma
    if !m then .ok (acc, s)
    else if check s .RightBracket then .ok (acc, s)
    else arrayElemsLoop fuel s acc

/-- `Parser::struct_initialization` (the leading identifier has already
been consumed). -/
def struct_initialization : Nat → String → ParserState →
    Except Panic (Expression × ParserState)
  | 0, _, _ => fuelPanic
  | fuel + 1, struct_name, s => do
    let (r, s) := consume s .LeftBrace
    let _ ← expectR r "Expected \x27\x7b\x27 for struct initialization"
    let (fields, s) ←
      if check s .RightBrace then pure ([], s)
      else structFieldsLoop fuel s []
    let (r, s) := consume s .RightBrace
    let _ ← expectR r "Expected \x27\x7d\x27 after struct initialization"
    .ok (.StructInitialization struct_name fields, s)

/-- The field loop of `Parser::struct_initialization`. -/
def structFieldsLoop : Nat → ParserState → List (String × Expression) →
    Except Panic (List (String × Expression) × ParserState)
  | 0, _, _ => fuelPanic
  | fuel + 1, s, acc => do
    let (r, s) := consume_identifier s
    let field_name ← expectR r "Expected field name in struct initialization"
    let (r, s) := consume s .Colon
    let _ ← expectR r "Expected \x27:\x27 in struct initialization"
    let (field_value, s) ← expression fuel s
    let acc := acc ++ [(field_name, field_value)]
    let (m, s) := match_token s .Comma
    if !m then .ok (acc, s)
    else if check s .RightBrace then .ok (acc, s)
    else structFieldsLoop fuel s acc

/-- `Parser::enum_variant_creation` (the leading identifier has already
been consumed). -/
def enum_variant_creation : Nat → String → ParserState →
    Except Panic (Expression × ParserState)
  | 0, _, _ => fuelPanic
  | fuel + 1, enum_name, s => do
    let (r, s) := consume s .DoubleColon
    let _ ← expectR r "Expected \x27::\x27 for enum variant"
    let (r, s) := consume_identifier s
    let variant_name ← expectR r "Expected variant name"
    let (m, s) := match_token s .LeftParen
    if m then do
      let (args, s) ←
        if check s .RightParen then pure ([], s)
        else enumArgsLoop fuel s []
      let (r, s) := consume s .RightParen
      let _ ← expectR r "Expected \x27)\x27"
      .ok (.EnumVariantCreation enum_name variant_name args, s)
    else .ok (.EnumVariantCreation enum_name variant_name [], s)

/-- The value loop of `Parser::enum_variant_creation`. -/
def enumArgsLoop : Nat → ParserState → List Expression →
    Except Panic (List Expression × ParserState)
  | 0, _, _ => fuelPanic
  | fuel + 1, s, acc => do
    let (arg, s) ← expression fuel s
    let acc := acc ++ [arg]
    let (m, s) := match_token s .Comma
    if !m then .ok (acc, s)
    else if check s .RightParen then .ok (acc, s)
    else enumArgsLoop fuel s acc

/-- `Parser::if_statement`. -/
def if_statement : Nat → ParserState → Except Panic (Statement × ParserState)
  | 0, _ => fuelPanic
  | fuel + 1, s => do
    let (condition, s) ← expression fuel s
    let (r, s) := consume s .LeftBrace
    let _ ← expectR r "Expected \x27\x7b\x27 after if condition"
    let (then_branch, s) ← parse_block_contents fuel s
    let (elif_branches, s) ← elifLoop fuel s []
    let (m, s) := match_token s .Else
    if m then do
      let (r, s) := consume s .LeftBrace
      let _ ← expectR r "Expected \x27\x7b\x27 after else"
      let (else_body, s) ← parse_block_contents fuel s
      .ok (.If condition then_branch elif_branches (some else_body), s)
    else .ok (.If condition then_branch elif_branches none, s)

/-- The elif loop of `Parser::if_statement`. -/
def elifLoop : Nat → ParserState → List (Expression × List Statement) →
    Except Panic (List (Expression × List Statement) × ParserState)
  | 0, _, _ => fuelPanic
  | fuel + 1, s, acc =>
    let (m, s) := match_token s .Elif
    if m then do
      let (elif_condition, s) ← expression fuel s
      let (r, s) := consume s .LeftBrace
      let _ ← expectR r "Expected \x27\x7b\x27 after elif condition"
      let (elif_body, s) ← parse_block_contents fuel s
      elifLoop fuel s (acc ++ [(elif_condition, elif_body)])
    else .ok (acc, s)

/-- `Parser::while_statement`. -/
def while_statement : Nat → ParserState → Except Panic (Statement × ParserState)
  | 0, _ => fuelPanic
  | fuel + 1, s => do
    let (condition, s) ← expression fuel s
    let (r, s) := consume s .LeftBrace
    let _ ← expectR r "Expected \x27\x7b\x27 after while condition"
    let (body, s) ← parse_block_contents fuel s
    .ok (.While condition body, s)

/-- `Parser::for_statement`. -/
def for_statement : Nat → ParserState → Except Panic (Statement × ParserState)
  | 0, _ => fuelPanic
  | fuel + 1, s => do
    let (r, s) := consume_identifier s
    let var ← expectR r "Expected variable name in for loop"
    let (r, s) := consume s .In
    let _ ← expectR r "Expected \x27in\x27 in for loop"
    let (iterable, s) ← expression fuel s
    let (r, s) := consume s .LeftBrace
    let _ ← expectR r "Expected \x27\x7b\x27 after for loop"
    let (body, s) ← parse_block_contents fuel s
    .ok (.For var iterable body, s)

end

/-- `Parser::new(tokens)` followed by `parse()`: the top-level statement
list, or the panic that terminated the process. -/
def parseTokens (fuel : Nat) (tokens : List Token) :
    Except Panic (List Statement × ParserState) :=
  parseLoop fuel { tokens := tokens, current := 0 } []

/-- The main-function search of `run_voltage_file` in
`voltage-cli/src/bin/voltagec.rs`: the first top-level function named
`main`. -/
def findMain : List Statement → Option Function
  | [] => none
  | .Function f :: rest => if f.name = "main" then some f else findMain rest
  | _ :: rest => findMain rest

/-- The core of `run_voltage_file`: tokenize, parse, compile the `main`
function, and run the result on a fresh machine.  `none` models the
paths on which nothing runs (a parser panic, no `main` function, or a
compile error). -/
def run_voltage_source (fuel : Nat) (source : String) :
    Option (Except String RuntimeValue × VirtualMachine) :=
  match parseTokens fuel (tokenize source) with
  | .error _ => none
  | .ok (ast, _) =>
    match findMain ast with
    | none => none
    | some func =>
      match compile_function fuel func BytecodeCompiler.new with
      | .error _ => none
      | .ok (bytecode, constants, _) => run fuel (VirtualMachine.load bytecode constants)

/-- The jump and duplication opcodes, which the dispatch loop's
catch-all arm rejects. -/
def isJumpOrDup : Bytecode → Bool
  | .Jump _ | .JumpIfFalse _ | .JumpIfTrue _ | .Dup => true
  | _ => false

/-- The instructions whose dispatch pops the operand stack through
`pop_value` (and therefore can raise `Stack underflow`); for
`CallBuiltin` only the two valid builtin ids reach a pop. -/
def popsViaPopValue : Bytecode → Bool
  | .Add | .Sub | .Mul | .Div | .Mod => true
  | .Eq | .Ne | .Lt | .Gt | .Le | .Ge => true
  | .Print | .Puts => true
  | .StoreLocal _ => true
  | .Call _ => true
  | .CallBuiltin id => id == 0 || id == 1
  | .StoreGlobal _ => true
  | _ => false

/-- A successful indexed lookup implies the index is in range. -/
theorem getSomeImpliesLt {α : Type} {l : List α} {n : Nat} {a : α}
    (h : l.get? n = some a) : n < l.length := by
  by_contra hn
  rw [List.get?_eq_none.mpr (by omega)] at h
  cases h

/-- C1: the claim says every lowered statement leaves the operand-stack
depth unchanged and every lowered expression leaves exactly one value.
The code violates both: the statement `if true { }` lowers to the single
instruction `LoadConst 0` (the condition, never popped or branched on),
and executing that sequence from an empty stack ends with one value on
the stack; the expression `[1]` lowers to two `LoadConst` instructions
(the element plus the `array_1` placeholder) and executing it from an
empty stack ends with two values. -/
theorem C1_if_statement_net_stack_depth_one :
    compile_statement 10
        (Statement.If (Expression.Literal (Literal.Boolean true)) [] [] none)
        BytecodeCompiler.new =
      Except.ok { bytecode := [Bytecode.LoadConst 0],
                  constants := [RuntimeValue.Boolean true], debugOut := [] } ∧
    execLoop 2 (VirtualMachine.load [Bytecode.LoadConst 0] [RuntimeValue.Boolean true]) =
      some (LoopEnd.finished { bytecode := [Bytecode.LoadConst 0],
                               constants := [RuntimeValue.Boolean true],
                               stack := [RuntimeValue.Boolean true], globals := [], ip := 1, output := "" }) ∧
    compile_expression 10
        (Expression.ArrayLiteral [Expression.Literal (Literal.Integer 1)])
        BytecodeCompiler.new =
      Except.ok { bytecode := [Bytecode.LoadConst 0, Bytecode.LoadConst 1],
                  constants := [RuntimeValue.Integer 1, RuntimeValue.String "array_1"],
                  debugOut := [] } ∧
    execLoop 3 (VirtualMachine.load [Bytecode.LoadConst 0, Bytecode.LoadConst 1]
        [RuntimeValue.Integer 1, RuntimeValue.String "array_1"]) =
      some (LoopEnd.finished
        { bytecode := [Bytecode.LoadConst 0, Bytecode.LoadConst 1],
          constants := [RuntimeValue.Integer 1, RuntimeValue.String "array_1"],
          stack := [RuntimeValue.String "array_1", RuntimeValue.Integer 1],
          globals := [], ip := 2, output := "" }) :=
  ⟨rfl, rfl, rfl, rfl⟩

/-- C2: the end-to-end pipeline on the claimed source does yield `Null`
as the function result, but it writes `0` plus newline (not `5` plus
newline): the two `let` declarations compile to load-then-pop with no
`StoreGlobal`, so `x` and `y` are absent at run time and `LoadGlobal`
pushes the default `Integer 0` for each. -/
theorem C2_pipeline_writes_zero_newline :
    run_voltage_source 1000
      "fn main() \x7b let x = 2; let y = 3; puts(\x22\x7b\x7d\x22, x + y); \x7d" =
      some (Except.ok RuntimeValue.Null,
        { bytecode := [Bytecode.LoadConst 0, Bytecode.Pop, Bytecode.LoadConst 1,
            Bytecode.Pop, Bytecode.LoadGlobal "x", Bytecode.LoadGlobal "y",
            Bytecode.Add, Bytecode.CallBuiltin 0, Bytecode.Pop,
            Bytecode.LoadConst 3, Bytecode.Return],
          constants := [RuntimeValue.Integer 2, RuntimeValue.Integer 3,
            RuntimeValue.String "\x22\x7b\x7d\x22", RuntimeValue.Integer 0],
          stack := [], globals := [], ip := 11, output := "0\n" }) := by
  rfl

/-- C3: the claim says `LoadGlobal` on an absent name raises
UndefinedVariable and never pushes a silent default.  The code does the
opposite: dispatching `LoadGlobal "x"` with empty globals pushes the
default `Integer 0`, and the run completes successfully returning it. -/
theorem C3_load_global_absent_pushes_default_zero :
    step (VirtualMachine.load [Bytecode.LoadGlobal "x"] []) =
      StepRes.next { bytecode := [Bytecode.LoadGlobal "x"], constants := [],
                     stack := [RuntimeValue.Integer 0], globals := [], ip := 1, output := "" } ∧
    run 2 (VirtualMachine.load [Bytecode.LoadGlobal "x"] []) =
      some (Except.ok (RuntimeValue.Integer 0),
        { bytecode := [Bytecode.LoadGlobal "x"], constants := [], stack := [],
          globals := [], ip := 1, output := "" }) :=
  ⟨rfl, rfl⟩

/-- C4: the claim says `for x in [1, 2, 3] { puts(x); }` runs its body
three times binding `x` to 1, 2, 3, lowered with a cursor, a loop-head
comparison, and a back jump.  The code instead compiles the iterable
(pushing 1, 2, 3 and the `array_3` placeholder) followed by the body
once, with no jump, comparison or binding instruction at all; running
the emitted sequence executes the body exactly once, prints `0` (the
default for the unbound `x`), and leaves the spilled element values on
the stack. -/
theorem C4_for_loop_compiles_without_jumps_body_once :
    (parseTokens 1000 (tokenize ("for x in [1, 2, 3] \x7b puts(x); \x7d"))).map
        Prod.fst =
      Except.ok [Statement.For "x"
        (Expression.ArrayLiteral [Expression.Literal (Literal.Integer 1),
          Expression.Literal (Literal.Integer 2),
          Expression.Literal (Literal.Integer 3)])
        [Statement.Expression (Expression.Call "puts" [Expression.Variable "x"])]] ∧
    compile_statement 100
        (Statement.For "x"
          (Expression.ArrayLiteral [Expression.Literal (Literal.Integer 1),
            Expression.Literal (Literal.Integer 2),
            Expression.Literal (Literal.Integer 3)])
          [Statement.Expression (Expression.Call "puts" [Expression.Variable "x"])])
        BytecodeCompiler.new =
      Except.ok { bytecode := [Bytecode.LoadConst 0, Bytecode.LoadConst 1,
          Bytecode.LoadConst 2, Bytecode.LoadConst 3, Bytecode.LoadGlobal "x",
          Bytecode.CallBuiltin 0, Bytecode.Pop],
                  constants := [RuntimeValue.Integer 1, RuntimeValue.Integer 2,
          RuntimeValue.Integer 3, RuntimeValue.String "array_3"],
                  debugOut := [] } ∧
    run 100 (VirtualMachine.load
        [Bytecode.LoadConst 0, Bytecode.LoadConst 1, Bytecode.LoadConst 2,
         Bytecode.LoadConst 3, Bytecode.LoadGlobal "x", Bytecode.CallBuiltin 0,
         Bytecode.Pop]
        [RuntimeValue.Integer 1, RuntimeValue.Integer 2, RuntimeValue.Integer 3,
         RuntimeValue.String "array_3"]) =
      some (Except.ok (RuntimeValue.String "array_3"),
        { bytecode := [Bytecode.LoadConst 0, Bytecode.LoadConst 1,
            Bytecode.LoadConst 2, Bytecode.LoadConst 3, Bytecode.LoadGlobal "x",
            Bytecode.CallBuiltin 0, Bytecode.Pop],
          constants := [RuntimeValue.Integer 1, RuntimeValue.Integer 2,
            RuntimeValue.Integer 3, RuntimeValue.String "array_3"],
          stack := [RuntimeValue.Integer 3, RuntimeValue.Integer 2,
            RuntimeValue.Integer 1],
          globals := [], ip := 7, output := "0\n" }) :=
  ⟨rfl, rfl, rfl⟩

/-- C5: the claim says calls to names other than `puts`/`print` are
resolved at compile time through a function table of entry offsets.  The
code has no such table: `f(1)` compiles to pushing the argument, loading
the constant `String "f"` (the callee's name), and `Call 1`; resolution
happens at run time by comparing that name string, and any name other
than the builtins fails with `Unknown function: f`.  The builtin half of
the claim does hold for one-argument calls: `puts(1)` compiles to
`CallBuiltin 0` after the argument. -/
theorem C5_user_call_resolved_at_runtime_by_name :
    compile_expression 10
        (Expression.Call "f" [Expression.Literal (Literal.Integer 1)])
        BytecodeCompiler.new =
      Except.ok { bytecode := [Bytecode.LoadConst 0, Bytecode.LoadConst 1,
          Bytecode.Call 1],
                  constants := [RuntimeValue.Integer 1, RuntimeValue.String "f"],
                  debugOut := [] } ∧
    run 10 (VirtualMachine.load
        [Bytecode.LoadConst 0, Bytecode.LoadConst 1, Bytecode.Call 1]
        [RuntimeValue.Integer 1, RuntimeValue.String "f"]) =
      some (Except.error "Unknown function: f",
        { bytecode := [Bytecode.LoadConst 0, Bytecode.LoadConst 1, Bytecode.Call 1],
          constants := [RuntimeValue.Integer 1, RuntimeValue.String "f"],
          stack := [RuntimeValue.Integer 1], globals := [], ip := 3, output := "" }) ∧
    compile_expression 10
        (Expression.Call "puts" [Expression.Literal (Literal.Integer 1)])
        BytecodeCompiler.new =
      Except.ok { bytecode := [Bytecode.LoadConst 0, Bytecode.CallBuiltin 0],
                  constants := [RuntimeValue.Integer 1], debugOut := [] } :=
  ⟨rfl, rfl, rfl⟩

/-- C6: the claim says a structural violation produces a ParseError
value describing expected versus found, surfaced to the caller, and
parsing never terminates the process.  On `let x 5;` the `consume` call
does build the descriptive error value `Expected Equals, got Number(5)`,
but `var_declaration` unwraps it with `.expect(..)`, so the embedded
parse ends in a `Panic` (process termination) instead of returning the
error to the caller — `parse`'s return type has no error channel. -/
theorem C6_parse_error_panics_process :
    (consume { tokens := tokenize ("let x 5;"), current := 2 } Token.Equals).1 =
      Except.error "Expected Equals, got Number(5)" ∧
    parseTokens 1000 (tokenize ("let x 5;")) =
      Except.error
        { msg := "Expected \x27=\x27 after variable name: \x22Expected Equals, got Number(5)\x22" } :=
  ⟨rfl, rfl⟩

/-- C7: with same-variant numeric operands, `Div` with a zero divisor
makes `run` return the `Division by zero` error and `Mod` with a zero
divisor the `Modulo by zero` error, for every dividend `a` (any sign)
and both `Integer` and `Float` variants; no value is pushed and no
wrapped or saturated result is produced. -/
theorem C7_div_mod_by_zero_error :
    (∀ (vm : VirtualMachine) (fuel : Nat) (a : Int) (rest : List RuntimeValue),
      0 < fuel → vm.bytecode.get? vm.ip = some Bytecode.Div →
      vm.stack = RuntimeValue.Integer 0 :: RuntimeValue.Integer a :: rest →
      (run fuel vm).map Prod.fst = some (Except.error "Division by zero")) ∧
    (∀ (vm : VirtualMachine) (fuel : Nat) (a : Rat) (rest : List RuntimeValue),
      0 < fuel → vm.bytecode.get? vm.ip = some Bytecode.Div →
      vm.stack = RuntimeValue.Float 0 :: RuntimeValue.Float a :: rest →
      (run fuel vm).map Prod.fst = some (Except.error "Division by zero")) ∧
    (∀ (vm : VirtualMachine) (fuel : Nat) (a : Int) (rest : List RuntimeValue),
      0 < fuel → vm.bytecode.get? vm.ip = some Bytecode.Mod →
      vm.stack = RuntimeValue.Integer 0 :: RuntimeValue.Integer a :: rest →
      (run fuel vm).map Prod.fst = some (Except.error "Modulo by zero")) ∧
    (∀ (vm : VirtualMachine) (fuel : Nat) (a : Rat) (rest : List RuntimeValue),
      0 < fuel → vm.bytecode.get? vm.ip = some Bytecode.Mod →
      vm.stack = RuntimeValue.Float 0 :: RuntimeValue.Float a :: rest →
      (run fuel vm).map Prod.fst = some (Except.error "Modulo by zero")) := by
  refine ⟨?_, ?_, ?_, ?_⟩
  · intro vm fuel a rest hf hb hs
    cases fuel with
    | zero => exact absurd hf (by omega)
    | succ f =>
      have hlt := getSomeImpliesLt hb
      have hstep : step vm = StepRes.fail "Division by zero"
          { vm with ip := vm.ip + 1, stack := rest } := by
        unfold step
        rw [hb]
        simp [stepInstr, binArith, pop_value, hs]
      simp [run, execLoop, hlt, hstep]
  · intro vm fuel a rest hf hb hs
    cases fuel with
    | zero => exact absurd hf (by omega)
    | succ f =>
      have hlt := getSomeImpliesLt hb
      have hstep : step vm = StepRes.fail "Division by zero"
          { vm with ip := vm.ip + 1, stack := rest } := by
        unfold step
        rw [hb]
        simp [stepInstr, binArith, pop_value, hs]
      simp [run, execLoop, hlt, hstep]
  · intro vm fuel a rest hf hb hs
    cases fuel with
    | zero => exact absurd hf (by omega)
    | succ f =>
      have hlt := getSomeImpliesLt hb
      have hstep : step vm = StepRes.fail "Modulo by zero"
          { vm with ip := vm.ip + 1, stack := rest } := by
        unfold step
        rw [hb]
        simp [stepInstr, binArith, pop_value, hs]
      simp [run, execLoop, hlt, hstep]
  · intro vm fuel a rest hf hb hs
    cases fuel with
    | zero => exact absurd hf (by omega)
    | succ f =>
      have hlt := getSomeImpliesLt hb
      have hstep : step vm = StepRes.fail "Modulo by zero"
          { vm with ip := vm.ip + 1, stack := rest } := by
        unfold step
        rw [hb]
        simp [stepInstr, binArith, pop_value, hs]
      simp [run, execLoop, hlt, hstep]

/-- Witness for C7: concrete machines about to divide (or take the
remainder of) a negative dividend by zero, in both variants. -/
theorem C7_div_mod_by_zero_error_witness :
    (run 1 { bytecode := [Bytecode.Div], constants := [],
             stack := [RuntimeValue.Integer 0, RuntimeValue.Integer (-7)],
             globals := [], ip := 0, output := "" }).map Prod.fst =
      some (Except.error "Division by zero") ∧
    (run 1 { bytecode := [Bytecode.Div], constants := [],
             stack := [RuntimeValue.Float 0, RuntimeValue.Float (-5 / 2)],
             globals := [], ip := 0, output := "" }).map Prod.fst =
      some (Except.error "Division by zero") ∧
    (run 1 { bytecode := [Bytecode.Mod], constants := [],
             stack := [RuntimeValue.Integer 0, RuntimeValue.Integer (-7)],
             globals := [], ip := 0, output := "" }).map Prod.fst =
      some (Except.error "Modulo by zero") ∧
    (run 1 { bytecode := [Bytecode.Mod], constants := [],
             stack := [RuntimeValue.Float 0, RuntimeValue.Float (-5 / 2)],
             globals := [], ip := 0, output := "" }).map Prod.fst =
      some (Except.error "Modulo by zero") :=
  ⟨C7_div_mod_by_zero_error.1 _ 1 (-7) [] (by decide) rfl rfl,
   C7_div_mod_by_zero_error.2.1 _ 1 (-5 / 2) [] (by decide) rfl rfl,
   C7_div_mod_by_zero_error.2.2.1 _ 1 (-7) [] (by decide) rfl rfl,
   C7_div_mod_by_zero_error.2.2.2 _ 1 (-5 / 2) [] (by decide) rfl rfl⟩

/-- C8 counterexample: the claim includes `Pop` and `Return` among the
opcodes that raise StackUnderflow on an empty operand stack, but running
each of them alone on an empty stack completes without any error. -/
theorem C8_pop_return_empty_stack_no_error :
    run 2 (VirtualMachine.load [Bytecode.Pop] []) =
      some (Except.ok RuntimeValue.Null,
        { bytecode := [Bytecode.Pop], constants := [], stack := [], globals := [],
          ip := 1, output := "" }) ∧
    run 2 (VirtualMachine.load [Bytecode.Return] []) =
      some (Except.ok RuntimeValue.Null,
        { bytecode := [Bytecode.Return], constants := [], stack := [], globals := [],
          ip := 1, output := "" }) :=
  ⟨rfl, rfl⟩

/-- C8 amended: every instruction that pops through `pop_value` (the
arithmetic, comparison, `Print`/`Puts`, `StoreLocal`, `Call`,
`CallBuiltin 0`/`CallBuiltin 1` and `StoreGlobal` opcodes) makes `run`
return the `Stack underflow` error when the operand stack is empty;
`Pop` and `Return`, which bypass `pop_value`, silently leave the machine
unchanged apart from the advanced instruction pointer. -/
theorem C8_stack_underflow_amended :
    (∀ (vm : VirtualMachine) (fuel : Nat) (instr : Bytecode),
      0 < fuel → vm.bytecode.get? vm.ip = some instr → vm.stack = [] →
      popsViaPopValue instr = true →
      (run fuel vm).map Prod.fst = some (Except.error "Stack underflow")) ∧
    (∀ vm : VirtualMachine, vm.bytecode.get? vm.ip = some Bytecode.Pop →
      vm.stack = [] → step vm = .next { vm with ip := vm.ip + 1 }) ∧
    (∀ vm : VirtualMachine, vm.bytecode.get? vm.ip = some Bytecode.Return →
      vm.stack = [] → step vm = .next { vm with ip := vm.ip + 1 }) := by
  refine ⟨?_, ?_, ?_⟩
  · intro vm fuel instr hf hb hs hset
    cases fuel with
    | zero => exact absurd hf (by omega)
    | succ f =>
      have hlt := getSomeImpliesLt hb
      have hstep : step vm = StepRes.fail "Stack underflow" { vm with ip := vm.ip + 1 } := by
        unfold step
        rw [hb]
        cases instr <;> simp [popsViaPopValue] at hset <;>
          (try rcases hset with rfl | rfl) <;>
          simp [stepInstr, binArith, binCompare, pop_value, hs]
      simp [run, execLoop, hlt, hstep]
  · intro vm hb hs
    unfold step
    rw [hb]
    simp [stepInstr, hs]
  · intro vm hb hs
    unfold step
    rw [hb]
    simp [stepInstr, hs]

/-- Witness for C8 amended: `Add` on an empty stack underflows, while
`Pop` and `Return` on an empty stack step through silently. -/
theorem C8_stack_underflow_amended_witness :
    (run 1 { bytecode := [Bytecode.Add], constants := [], stack := [],
             globals := [], ip := 0, output := "" }).map Prod.fst =
      some (Except.error "Stack underflow") ∧
    step { bytecode := [Bytecode.Pop], constants := [], stack := [],
           globals := [], ip := 0, output := "" } =
      .next { bytecode := [Bytecode.Pop], constants := [], stack := [],
              globals := [], ip := 1, output := "" } ∧
    step { bytecode := [Bytecode.Return], constants := [], stack := [],
           globals := [], ip := 0, output := "" } =
      .next { bytecode := [Bytecode.Return], constants := [], stack := [],
              globals := [], ip := 1, output := "" } :=
  ⟨C8_stack_underflow_amended.1 _ 1 Bytecode.Add (by decide) rfl rfl rfl,
   C8_stack_underflow_amended.2.1 _ rfl rfl,
   C8_stack_underflow_amended.2.2 _ rfl rfl⟩

/-- C9 counterexample: the identifier token `true` in primary position
does not parse as a plain variable reference (as the claim's final
clause demands of identifiers that are not struct or enum heads); it
parses as the boolean literal. -/
theorem C9_true_identifier_not_variable :
    primary 2 { tokens := [Token.Identifier "true"], current := 0 } =
      Except.ok (Expression.Literal (Literal.Boolean true),
        { tokens := [Token.Identifier "true"], current := 1 }) ∧
    Expression.Literal (Literal.Boolean true) ≠ Expression.Variable "true" :=
  ⟨rfl, fun h => Expression.noConfusion h⟩

/-- C9 amended: the parser disambiguates an identifier primary by one
token of lookahead — `Point { x: 1, y: 2 }` is a StructInitialization
with fields x then y (never a variable followed by a block),
`Color::Red` an EnumVariantCreation with no values, `Shape::Circle(5)`
an EnumVariantCreation with the single value 5 — except that the
identifiers `true` and `false` (checked before the lookahead) parse as
boolean literals; every other identifier whose next token is neither a
left brace nor a double colon parses as a plain variable reference. -/
theorem C9_identifier_disambiguation_amended :
    (expression 100 { tokens := tokenize ("Point \x7b x: 1, y: 2 \x7d"),
                      current := 0 }).map Prod.fst =
      Except.ok (Expression.StructInitialization "Point"
        [("x", Expression.Literal (Literal.Integer 1)),
         ("y", Expression.Literal (Literal.Integer 2))]) ∧
    (expression 100 { tokens := tokenize ("Color::Red"), current := 0 }).map
        Prod.fst =
      Except.ok (Expression.EnumVariantCreation "Color" "Red" []) ∧
    (expression 100 { tokens := tokenize ("Shape::Circle(5)"), current := 0 }).map
        Prod.fst =
      Except.ok (Expression.EnumVariantCreation "Shape" "Circle"
        [Expression.Literal (Literal.Integer 5)]) ∧
    (primary 2 { tokens := [Token.Identifier "true"], current := 0 }).map
        Prod.fst =
      Except.ok (Expression.Literal (Literal.Boolean true)) ∧
    (primary 2 { tokens := [Token.Identifier "false"], current := 0 }).map
        Prod.fst =
      Except.ok (Expression.Literal (Literal.Boolean false)) ∧
    (∀ (fuel : Nat) (name : String) (rest : List Token),
      0 < fuel → ¬name = "true" → ¬name = "false" →
      (∀ t, rest.head? = some t → ¬t = Token.LeftBrace ∧ ¬t = Token.DoubleColon) →
      primary fuel { tokens := Token.Identifier name :: rest, current := 0 } =
        Except.ok (Expression.Variable name,
          { tokens := Token.Identifier name :: rest, current := 1 })) := by
  refine ⟨rfl, rfl, rfl, rfl, rfl, ?_⟩
  intro fuel name rest hf h1 h2 h3
  cases fuel with
  | zero => exact absurd hf (by omega)
  | succ f =>
    cases rest with
    | nil =>
      simp [primary, match_token, check, is_at_end, tokenAt, sameKind, advanceState,
            h1, h2]
    | cons t ts =>
      have ht := h3 t rfl
      simp [primary, match_token, check, is_at_end, tokenAt, sameKind, advanceState,
            h1, h2, ht.1, ht.2]

/-- Witness for C9 amended: the identifier `foo` with no lookahead token
parses as a plain variable reference. -/
theorem C9_identifier_disambiguation_amended_witness :
    primary 1 { tokens := [Token.Identifier "foo"], current := 0 } =
      Except.ok (Expression.Variable "foo",
        { tokens := [Token.Identifier "foo"], current := 1 }) :=
  C9_identifier_disambiguation_amended.2.2.2.2.2 1 "foo" [] (by decide)
    (by decide) (by decide) (fun _ ht => Option.noConfusion ht)

/-- C10: whenever the dispatch loop fetches a `Jump`, `JumpIfFalse`,
`JumpIfTrue` or `Dup` instruction, `run` immediately returns the
`Unsupported instruction` error: none of these opcodes is handled by a
dispatch arm, they all fall into the catch-all. -/
theorem C10_jump_dup_unsupported :
    ∀ (vm : VirtualMachine) (fuel : Nat) (instr : Bytecode),
      0 < fuel → vm.bytecode.get? vm.ip = some instr → isJumpOrDup instr = true →
      (run fuel vm).map Prod.fst =
        some (Except.error ("Unsupported instruction: " ++ bytecodeDebug instr)) := by
  intro vm fuel instr hf hb hset
  cases fuel with
  | zero => exact absurd hf (by omega)
  | succ f =>
    have hlt := getSomeImpliesLt hb
    have hstep : step vm = StepRes.fail ("Unsupported instruction: " ++ bytecodeDebug instr)
        { vm with ip := vm.ip + 1 } := by
      unfold step
      rw [hb]
      cases instr <;> simp [isJumpOrDup] at hset <;> simp [stepInstr]
    simp [run, execLoop, hlt, hstep]

/-- Witness for C10: a machine whose single instruction is `Dup` fails
immediately with the unsupported-instruction error. -/
theorem C10_jump_dup_unsupported_witness :
    (run 1 { bytecode := [Bytecode.Dup], constants := [], stack := [],
             globals := [], ip := 0, output := "" }).map Prod.fst =
      some (Except.error ("Unsupported instruction: " ++ bytecodeDebug Bytecode.Dup)) :=
  C10_jump_dup_unsupported _ 1 Bytecode.Dup (by decide) rfl rfl

end Voltage
